import Mathlib

/-!
Verification of the Spotify song analyzer normalization/load subsystem.

This file is a shallow embedding of the data pipeline implemented in
Preprocessing.py (classes SongDatasetProcessor and DatabaseManager) and of the
query-side lookup in Artist.py (class ArtistPopularityAnalyzer), together with
theorems settling the specified properties of that code.

Modelling conventions:
- pandas/SQLite real numbers (speechiness, danceability, AVG results) are
  modelled as rationals; CSV integers as Int/Nat; strings as Lean strings.
- the SQLite database is an explicit state value (lists of rows per table);
  AUTOINCREMENT ids are one plus the maximum id present, starting from 1.
- conn.commit() is modelled by snapshotting the current tables into the
  durable fields of the state and counting the commit.
- Python str.lower is modelled on the basic latin range (Char.toLower),
  which is what artist names in the dataset use.
-/

/-- Replacement of a single space character by an underscore, one character of
Python str.replace applied with single-character arguments. -/
def replSpace (c : Char) : Char := if c = ' ' then '_' else c

/-- Lower-casing of a whole string, modelling str.lower (Preprocessing.py line
54 uses the pandas elementwise form of it). -/
def pyLower (s : String) : String := ⟨s.data.map Char.toLower⟩

/-- Replacing every space by an underscore, modelling str.replace of a space by
an underscore. -/
def pyReplaceSpace (s : String) : String := ⟨s.data.map replSpace⟩

/-- Artist-name canonicalization performed by the caller in
load_and_preprocess_data, Preprocessing.py line 54: lower-case the string, then
replace each space with an underscore.  The same composition appears on the
query side in get_artist_id, Artist.py line 60. -/
def canonicalize (s : String) : String := pyReplaceSpace (pyLower s)

/-- Splitting a character list on every occurrence of the two-character
separator comma-space, scanning left to right.  This models Python
str.split applied with separator ", " (Preprocessing.py line 179); in
particular the empty string yields a single empty token, exactly as in
Python where the empty string split on ", " gives a list holding one
empty string. -/
def splitCS (acc : List Char) : List Char → List (List Char)
  | [] => [acc.reverse]
  | ',' :: ' ' :: rest => acc.reverse :: splitCS [] rest
  | c :: rest => splitCS (c :: acc) rest

/-- Genre-field tokenization: row.genre.split with separator ", " from
Preprocessing.py line 179. -/
def pySplitCommaSpace (s : String) : List String :=
  (splitCS [] s.data).map String.mk

/-- Unit conversion of Preprocessing.py line 47: milliseconds divided by 1000
and rounded by the pandas round function, which rounds half-way values to the
nearest even integer; exact on integer millisecond inputs. -/
def roundDiv1000 (ms : Nat) : Nat :=
  if ms % 1000 < 500 then ms / 1000
  else if 500 < ms % 1000 then ms / 1000 + 1
  else if ms / 1000 % 2 = 0 then ms / 1000 else ms / 1000 + 1

/-- Raw CSV input row, with the columns Preprocessing.py reads. -/
structure Row where
  song : String
  artist : String
  genre : String
  duration_ms : Nat
  popularity : Int
  speechiness : Rat
  danceability : Rat
  explicit : Bool
  year : Int

/-- Preprocessed row, after the duration_ms column is renamed to duration and
converted to seconds (Preprocessing.py lines 46 and 47). -/
structure PRow where
  song : String
  artist : String
  genre : String
  duration : Nat
  popularity : Int
  speechiness : Rat
  danceability : Rat
  explicit : Bool
  year : Int

/-- Rename of duration_ms to duration together with the unit conversion,
Preprocessing.py lines 46 and 47. -/
def convertDuration (r : Row) : PRow :=
  { song := r.song, artist := r.artist, genre := r.genre
    duration := roundDiv1000 r.duration_ms
    popularity := r.popularity, speechiness := r.speechiness
    danceability := r.danceability, explicit := r.explicit, year := r.year }

/-- Row filter of Preprocessing.py lines 48 to 53. -/
def accept (r : PRow) : Bool :=
  (50 < r.popularity) && ((0.33 : Rat) ≤ r.speechiness) &&
    (r.speechiness ≤ (0.66 : Rat)) && ((0.20 : Rat) < r.danceability)

/-- Artist-name standardization step of Preprocessing.py line 54. -/
def canonArtist (r : PRow) : PRow := { r with artist := canonicalize r.artist }

/-- SongDatasetProcessor.load_and_preprocess_data, Preprocessing.py lines 38
to 56: duration conversion, then the popularity/speechiness/danceability
filter, then artist-name canonicalization. -/
def load_and_preprocess_data (rows : List Row) : List PRow :=
  ((rows.map convertDuration).filter accept).map canonArtist

/-- Row of the Artist or Genre table: surrogate id plus unique natural key. -/
structure Entity where
  id : Nat
  name : String
deriving DecidableEq

/-- Row of the Song table (Preprocessing.py lines 107 to 120). -/
structure SongRow where
  id : Nat
  song_name : String
  duration : Nat
  explicit : Nat
  year : Int
  popularity : Int
  danceability : Rat
  speechiness : Rat
  artist_id : Nat

/-- State of the SQLite database CWDatabase.db: the four tables, the durable
(committed) snapshot of each, and the number of commit calls issued. -/
structure DBState where
  artists : List Entity
  genres : List Entity
  songs : List SongRow
  songGenres : List (Nat × Nat)
  durableArtists : List Entity
  durableGenres : List Entity
  durableSongs : List SongRow
  durableSongGenres : List (Nat × Nat)
  commits : Nat

/-- Freshly created empty database. -/
def initState : DBState :=
  { artists := [], genres := [], songs := [], songGenres := []
    durableArtists := [], durableGenres := [], durableSongs := []
    durableSongGenres := [], commits := 0 }

/-- Model of conn.commit(): every pending insertion becomes durable. -/
def dbCommit (st : DBState) : DBState :=
  { st with durableArtists := st.artists, durableGenres := st.genres
            durableSongs := st.songs, durableSongGenres := st.songGenres
            commits := st.commits + 1 }

/-- DatabaseManager.create_tables, Preprocessing.py lines 85 to 131: the schema
itself is fixed by the DBState type; what remains observable is the commit at
line 131.  CREATE TABLE IF NOT EXISTS leaves existing rows untouched. -/
def create_tables (st : DBState) : DBState := dbCommit st

/-- SQLite AUTOINCREMENT id for the entity tables: one more than the largest
id ever used, which (rows are never deleted) is the largest id present. -/
def nextId (l : List Entity) : Nat := l.foldr (fun e m => max e.id m) 0 + 1

/-- SQLite AUTOINCREMENT id for the Song table. -/
def nextSongId (l : List SongRow) : Nat := l.foldr (fun s m => max s.id m) 0 + 1

/-- The two table/column pairs get_or_create_id is called with: Artist with
column artist_name, and Genre with column genre_name. -/
inductive TableKind
  | artist
  | genre
deriving DecidableEq

/-- Entity table selected by a table kind. -/
def tableOf (st : DBState) : TableKind → List Entity
  | .artist => st.artists
  | .genre => st.genres

/-- Replacement of the entity table selected by a table kind. -/
def setTable (st : DBState) : TableKind → List Entity → DBState
  | .artist, l => { st with artists := l }
  | .genre, l => { st with genres := l }

/-- DatabaseManager.get_or_create_id, Preprocessing.py lines 133 to 152:
SELECT the id of the row whose key column equals the given value; if no row
matches, INSERT a new row with that value, commit, and return the fresh
lastrowid, else return the id found. -/
def get_or_create_id (st : DBState) (t : TableKind) (value : String) :
    Nat × DBState :=
  match (tableOf st t).find? (fun e => e.name = value) with
  | some e => (e.id, st)
  | none =>
      let nid := nextId (tableOf st t)
      (nid, dbCommit (setTable st t (tableOf st t ++ [⟨nid, value⟩])))

/-- Body of the inner loop of DatabaseManager.populate_database,
Preprocessing.py lines 180 to 185: resolve the genre id of one token and
INSERT one SongGenre pair linking the given song to it. -/
def isgStep (song_id : Nat) (s : DBState) (g : String) : DBState :=
  let res := get_or_create_id s .genre g
  { res.2 with songGenres := res.2.songGenres ++ [(song_id, res.1)] }

/-- Inner loop of DatabaseManager.populate_database, Preprocessing.py lines
180 to 185: for each genre token, resolve the genre id and INSERT one
SongGenre pair linking the given song to it. -/
def insertSongGenres (st : DBState) (song_id : Nat) (gs : List String) :
    DBState :=
  gs.foldl (isgStep song_id) st

/-- One iteration of the row loop of DatabaseManager.populate_database,
Preprocessing.py lines 161 to 185: resolve the artist, INSERT the Song row
bound to that artist id, then split the genre field on comma-space and insert
one SongGenre pair per token. -/
def loadRow (st : DBState) (r : PRow) : DBState :=
  let res := get_or_create_id st .artist r.artist
  let st1 := res.2
  let song_id := nextSongId st1.songs
  let st2 := { st1 with songs := st1.songs ++
    [{ id := song_id, song_name := r.song, duration := r.duration
       explicit := if r.explicit then 1 else 0, year := r.year
       popularity := r.popularity, danceability := r.danceability
       speechiness := r.speechiness, artist_id := res.1 }] }
  insertSongGenres st2 song_id (pySplitCommaSpace r.genre)

/-- Song row inserted for one input row by populate_database, Preprocessing.py
lines 163 to 176: the values bound into the INSERT INTO Song statement,
with the artist id resolved by get_or_create_id and the fresh AUTOINCREMENT
song id. -/
def newSongRow (st : DBState) (r : PRow) : SongRow :=
  { id := nextSongId (get_or_create_id st .artist r.artist).2.songs
    song_name := r.song, duration := r.duration
    explicit := if r.explicit then 1 else 0, year := r.year
    popularity := r.popularity, danceability := r.danceability
    speechiness := r.speechiness
    artist_id := (get_or_create_id st .artist r.artist).1 }

/-- Database state right after the Song INSERT of one row-loop iteration,
before the SongGenre loop runs. -/
def songInsertState (st : DBState) (r : PRow) : DBState :=
  { (get_or_create_id st .artist r.artist).2 with
    songs := (get_or_create_id st .artist r.artist).2.songs
      ++ [newSongRow st r] }

/-- DatabaseManager.populate_database, Preprocessing.py lines 154 to 186: load
every row, then commit (line 186). -/
def populate_database (st : DBState) (data : List PRow) : DBState :=
  dbCommit (data.foldl loadRow st)

/-- ArtistPopularityAnalyzer.get_artist_id, Artist.py lines 50 to 66:
canonicalize the entered name exactly as the loader does, SELECT the matching
Artist id, and return it, or None (after reporting the miss) when no row
matches. -/
def get_artist_id (st : DBState) (artist_name : String) : Option Nat :=
  match st.artists.find? (fun e => e.name = canonicalize artist_name) with
  | some e => some e.id
  | none => none

/-- Join of Song, SongGenre and Genre restricted to one artist, the FROM/WHERE
part of the query in get_artist_popularity_per_genre, Artist.py lines 78
to 85. -/
def artistJoinRows (st : DBState) (aid : Nat) : List (String × Int) :=
  st.songGenres.filterMap fun p =>
    match st.songs.find? (fun s => s.id = p.1),
          st.genres.find? (fun g => g.id = p.2) with
    | some s, some g =>
        if s.artist_id = aid then some (g.name, s.popularity) else none
    | _, _ => none

/-- Join of Song, SongGenre and Genre over all artists, the FROM part of the
query in get_overall_genre_popularity, Artist.py lines 96 to 102. -/
def allJoinRows (st : DBState) : List (String × Int) :=
  st.songGenres.filterMap fun p =>
    match st.songs.find? (fun s => s.id = p.1),
          st.genres.find? (fun g => g.id = p.2) with
    | some s, some g => some (g.name, s.popularity)
    | _, _ => none

/-- GROUP BY genre_name with AVG(popularity) over a joined row list. -/
def groupAvg (rows : List (String × Int)) : List (String × Rat) :=
  (rows.map Prod.fst).dedup.map fun gname =>
    let vals := (rows.filter (fun q => q.1 = gname)).map Prod.snd
    (gname, (vals.sum : Rat) / vals.length)

/-- ArtistPopularityAnalyzer.get_artist_popularity_per_genre, Artist.py lines
68 to 87. -/
def get_artist_popularity_per_genre (st : DBState) (aid : Nat) :
    List (String × Rat) :=
  groupAvg (artistJoinRows st aid)

/-- ArtistPopularityAnalyzer.get_overall_genre_popularity, Artist.py lines 89
to 104. -/
def get_overall_genre_popularity (st : DBState) : List (String × Rat) :=
  groupAvg (allJoinRows st)

/-- Data displayed by display_artist_vs_genre_popularity: the two aggregate
query results it tabulates and plots. -/
structure Report where
  artistRows : List (String × Rat)
  overallRows : List (String × Rat)

/-- ArtistPopularityAnalyzer.display_artist_vs_genre_popularity, Artist.py
lines 106 to 155: resolve the artist id; abort (returning no comparison) when
the lookup misses, mirroring the early return at lines 114 and 115, whose
falsy test also catches an id equal to zero; otherwise produce the comparison
data.  The function only executes SELECT statements, so the database state is
left untouched. -/
def display_artist_vs_genre_popularity (st : DBState) (artist_name : String) :
    Option Report :=
  match get_artist_id st artist_name with
  | none => none
  | some aid =>
      if aid = 0 then none
      else some ⟨get_artist_popularity_per_genre st aid,
                 get_overall_genre_popularity st⟩

/-- Invariants of the destination schema, stated on the model: unique artist
names, unique genre names, unique surrogate ids in each table, every Song row
referencing an existing Artist row (unique by id-uniqueness), and every
SongGenre pair referencing an existing Song row and an existing Genre row. -/
def SchemaInv (st : DBState) : Prop :=
  (st.artists.map Entity.name).Nodup ∧
  (st.genres.map Entity.name).Nodup ∧
  (st.artists.map Entity.id).Nodup ∧
  (st.genres.map Entity.id).Nodup ∧
  (st.songs.map SongRow.id).Nodup ∧
  (∀ s ∈ st.songs, ∃ a ∈ st.artists, a.id = s.artist_id) ∧
  (∀ p ∈ st.songGenres,
    (∃ s ∈ st.songs, s.id = p.1) ∧ (∃ g ∈ st.genres, g.id = p.2))

instance (st : DBState) : Decidable (SchemaInv st) := by
  unfold SchemaInv; infer_instance

-- Concrete rows used by the witnesses and counterexamples below.

/-- Concrete preprocessed row with a fresh artist and one genre. -/
def rowA : PRow :=
  { song := "s", artist := "a", genre := "g", duration := 100
    popularity := 60, speechiness := 0.5, danceability := 0.5
    explicit := false, year := 2000 }

/-- Concrete preprocessed row sharing the artist of rowA. -/
def rowB : PRow :=
  { song := "t", artist := "a", genre := "h", duration := 120
    popularity := 55, speechiness := 0.4, danceability := 0.6
    explicit := true, year := 2001 }

/-- Concrete preprocessed row with genre field "pop, rock". -/
def rowPR : PRow :=
  { song := "X", artist := "foo_bar", genre := "pop, rock", duration := 200
    popularity := 70, speechiness := 0.5, danceability := 0.5
    explicit := false, year := 2005 }

/-- Concrete preprocessed row whose genre field is the empty string. -/
def rowEG : PRow :=
  { song := "e", artist := "a", genre := "", duration := 90
    popularity := 51, speechiness := 0.5, danceability := 0.5
    explicit := false, year := 1999 }

/-- Concrete raw input row, the worked example of the specification. -/
def rawFooBar : Row :=
  { song := "X", artist := "Foo Bar", genre := "pop, rock"
    duration_ms := 200000, popularity := 70, speechiness := 0.5
    danceability := 0.5, explicit := false, year := 2005 }

example : pySplitCommaSpace "pop, rock" = ["pop", "rock"] := by decide
example : pySplitCommaSpace "" = [""] := by decide
example : canonicalize "Foo Bar" = "foo_bar" := by decide
example : (populate_database initState [rowA]).commits = 3 := by decide
example : (populate_database initState [rowPR]).songGenres = [(1, 1), (1, 2)] := by decide
example : (populate_database initState [rowEG]).songGenres = [(1, 1)] := by decide
example : SchemaInv initState := by decide
example : SchemaInv (populate_database initState [rowA, rowB]) := by decide

-- Basic structural lemmas about the state operations.

lemma tableOf_dbCommit (st : DBState) (t : TableKind) :
    tableOf (dbCommit st) t = tableOf st t := by
  cases t <;> rfl

lemma tableOf_setTable (st : DBState) (t : TableKind) (l : List Entity) :
    tableOf (setTable st t l) t = l := by
  cases t <;> rfl

lemma setTable_songs (st : DBState) (t : TableKind) (l : List Entity) :
    (setTable st t l).songs = st.songs := by
  cases t <;> rfl

lemma setTable_songGenres (st : DBState) (t : TableKind) (l : List Entity) :
    (setTable st t l).songGenres = st.songGenres := by
  cases t <;> rfl

lemma le_maxFold (l : List Entity) (e : Entity) (h : e ∈ l) :
    e.id ≤ l.foldr (fun x m => max x.id m) 0 := by
  induction l with
  | nil => cases h
  | cons a as ih =>
      rcases List.mem_cons.mp h with h | h
      · subst h; exact le_max_left _ _
      · exact le_trans (ih h) (le_max_right _ _)

lemma nextId_fresh (l : List Entity) : ∀ e ∈ l, e.id < nextId l := by
  intro e he
  have := le_maxFold l e he
  unfold nextId
  omega

lemma le_maxFoldSong (l : List SongRow) (s : SongRow) (h : s ∈ l) :
    s.id ≤ l.foldr (fun x m => max x.id m) 0 := by
  induction l with
  | nil => cases h
  | cons a as ih =>
      rcases List.mem_cons.mp h with h | h
      · subst h; exact le_max_left _ _
      · exact le_trans (ih h) (le_max_right _ _)

lemma nextSongId_fresh (l : List SongRow) : ∀ s ∈ l, s.id < nextSongId l := by
  intro s hs
  have := le_maxFoldSong l s hs
  unfold nextSongId
  omega

lemma find?_append_none {α : Type} (p : α → Bool) {l1 : List α} (l2 : List α)
    (h : l1.find? p = none) : (l1 ++ l2).find? p = l2.find? p := by
  induction l1 with
  | nil => rfl
  | cons a as ih =>
      cases hpa : p a with
      | true => rw [List.find?_cons_of_pos _ hpa] at h; cases h
      | false =>
          have hpa' : ¬ p a = true := ne_true_of_eq_false hpa
          rw [List.find?_cons_of_neg _ hpa'] at h
          rw [List.cons_append, List.find?_cons_of_neg _ hpa']
          exact ih h

-- Case analysis of get_or_create_id into its SELECT-hit and INSERT branches.

lemma goc_spec (st : DBState) (t : TableKind) (v : String) :
    (∃ e, (tableOf st t).find? (fun x => x.name = v) = some e ∧
       get_or_create_id st t v = (e.id, st)) ∨
    ((tableOf st t).find? (fun x => x.name = v) = none ∧
       get_or_create_id st t v =
         (nextId (tableOf st t),
          dbCommit (setTable st t
            (tableOf st t ++ [⟨nextId (tableOf st t), v⟩])))) := by
  cases h : (tableOf st t).find? (fun x => x.name = v) with
  | some e => exact Or.inl ⟨e, rfl, by simp only [get_or_create_id, h]⟩
  | none => exact Or.inr ⟨rfl, by simp only [get_or_create_id, h]⟩

lemma goc_songs (st : DBState) (t : TableKind) (v : String) :
    (get_or_create_id st t v).2.songs = st.songs := by
  rcases goc_spec st t v with ⟨e, _, h⟩ | ⟨_, h⟩ <;> rw [h]
  simp [dbCommit, setTable_songs]

lemma goc_songGenres (st : DBState) (t : TableKind) (v : String) :
    (get_or_create_id st t v).2.songGenres = st.songGenres := by
  rcases goc_spec st t v with ⟨e, _, h⟩ | ⟨_, h⟩ <;> rw [h]
  simp [dbCommit, setTable_songGenres]

lemma goc_genre_artists (st : DBState) (v : String) :
    (get_or_create_id st .genre v).2.artists = st.artists := by
  rcases goc_spec st .genre v with ⟨e, _, h⟩ | ⟨_, h⟩
  · rw [h]
  · rw [h]; rfl

lemma goc_artist_genres (st : DBState) (v : String) :
    (get_or_create_id st .artist v).2.genres = st.genres := by
  rcases goc_spec st .artist v with ⟨e, _, h⟩ | ⟨_, h⟩
  · rw [h]
  · rw [h]; rfl

lemma goc_table_mono (st : DBState) (t : TableKind) (v : String) :
    ∀ e ∈ tableOf st t, e ∈ tableOf (get_or_create_id st t v).2 t := by
  intro e he
  rcases goc_spec st t v with ⟨f, _, h⟩ | ⟨_, h⟩ <;> rw [h]
  · exact he
  · rw [tableOf_dbCommit, tableOf_setTable]
    exact List.mem_append_left _ he

lemma goc_resolved (st : DBState) (t : TableKind) (v : String) :
    ∃ e ∈ tableOf (get_or_create_id st t v).2 t,
      e.id = (get_or_create_id st t v).1 ∧ e.name = v := by
  rcases goc_spec st t v with ⟨e, hf, h⟩ | ⟨hf, h⟩ <;> rw [h]
  · refine ⟨e, List.mem_of_find?_eq_some hf, rfl, ?_⟩
    have hpe := List.find?_some hf
    simpa using hpe
  · refine ⟨⟨nextId (tableOf st t), v⟩, ?_, rfl, rfl⟩
    rw [tableOf_dbCommit, tableOf_setTable]
    exact List.mem_append_right _ (List.mem_singleton.mpr rfl)

lemma goc_table_sub (st : DBState) (t : TableKind) (v : String) :
    ∀ e ∈ tableOf (get_or_create_id st t v).2 t,
      e ∈ tableOf st t ∨ e.name = v := by
  intro e he
  rcases goc_spec st t v with ⟨f, _, h⟩ | ⟨_, h⟩ <;> rw [h] at he
  · exact Or.inl he
  · rw [tableOf_dbCommit, tableOf_setTable] at he
    rcases List.mem_append.mp he with he | he
    · exact Or.inl he
    · right; rw [List.mem_singleton.mp he]

-- Preservation of the schema invariants by get_or_create_id.

lemma goc_inv (st : DBState) (t : TableKind) (v : String) (h : SchemaInv st) :
    SchemaInv (get_or_create_id st t v).2 := by
  rcases goc_spec st t v with ⟨e, _, hg⟩ | ⟨hf, hg⟩
  · rw [hg]; exact h
  · rw [hg]
    obtain ⟨h1, h2, h3, h4, h5, h6, h7⟩ := h
    have hnotin : ∀ x ∈ tableOf st t, ¬ x.name = v := by
      intro x hx
      have := List.find?_eq_none.mp hf x hx
      simpa using this
    have hid := nextId_fresh (tableOf st t)
    have hnames : ∀ (l : List Entity), (∀ x ∈ l, ¬ x.name = v) →
        (l.map Entity.name).Nodup → ((l ++ [Entity.mk (nextId l) v]).map Entity.name).Nodup := by
      intro l hl hnd
      rw [List.map_append]
      rw [List.nodup_append]
      refine ⟨hnd, List.nodup_singleton _, ?_⟩
      intro a ha hb
      rcases List.mem_map.mp ha with ⟨x, hx, hxa⟩
      have : a = v := by simpa using hb
      exact hl x hx (by rw [hxa, this])
    have hids : ∀ (l : List Entity), (l.map Entity.id).Nodup →
        ((l ++ [Entity.mk (nextId l) v]).map Entity.id).Nodup := by
      intro l hnd
      rw [List.map_append, List.nodup_append]
      refine ⟨hnd, List.nodup_singleton _, ?_⟩
      intro a ha hb
      rcases List.mem_map.mp ha with ⟨x, hx, hxa⟩
      have hav : a = nextId l := by simpa using hb
      have := nextId_fresh l x hx
      omega
    cases t
    · unfold SchemaInv
      refine ⟨hnames _ hnotin h1, h2, hids _ h3, h4, h5, ?_, ?_⟩
      · intro s hs
        rcases h6 s hs with ⟨a, ha, hid⟩
        exact ⟨a, List.mem_append_left _ ha, hid⟩
      · exact h7
    · unfold SchemaInv
      refine ⟨h1, hnames _ hnotin h2, h3, hids _ h4, h5, h6, ?_⟩
      intro p hp
      rcases h7 p hp with ⟨hs, g, hg, hgid⟩
      exact ⟨hs, g, List.mem_append_left _ hg, hgid⟩

-- Commit accounting for get_or_create_id: one commit per inserted entity.

lemma goc_commits (st : DBState) (t : TableKind) (v : String) :
    (get_or_create_id st t v).2.commits
        + st.artists.length + st.genres.length
      = st.commits + (get_or_create_id st t v).2.artists.length
        + (get_or_create_id st t v).2.genres.length := by
  rcases goc_spec st t v with ⟨e, _, hg⟩ | ⟨_, hg⟩ <;> rw [hg]
  cases t <;> simp [dbCommit, setTable, tableOf] <;> omega

-- Structural lemmas about insertSongGenres, the SongGenre insertion loop.

lemma isg_cons (st : DBState) (sid : Nat) (g : String) (rest : List String) :
    insertSongGenres st sid (g :: rest) =
      insertSongGenres (isgStep sid st g) sid rest := rfl

lemma isgStep_commits (sid : Nat) (st : DBState) (g : String) :
    (isgStep sid st g).commits = (get_or_create_id st .genre g).2.commits := rfl

lemma isgStep_artists (sid : Nat) (st : DBState) (g : String) :
    (isgStep sid st g).artists = st.artists := by
  show (get_or_create_id st .genre g).2.artists = st.artists
  exact goc_genre_artists st g

lemma isgStep_genres (sid : Nat) (st : DBState) (g : String) :
    (isgStep sid st g).genres = (get_or_create_id st .genre g).2.genres := rfl

lemma isgStep_songs (sid : Nat) (st : DBState) (g : String) :
    (isgStep sid st g).songs = st.songs := by
  show (get_or_create_id st .genre g).2.songs = st.songs
  exact goc_songs st .genre g

lemma isgStep_songGenres (sid : Nat) (st : DBState) (g : String) :
    (isgStep sid st g).songGenres
      = st.songGenres ++ [(sid, (get_or_create_id st .genre g).1)] := by
  show (get_or_create_id st .genre g).2.songGenres
      ++ [(sid, (get_or_create_id st .genre g).1)]
    = st.songGenres ++ [(sid, (get_or_create_id st .genre g).1)]
  rw [goc_songGenres]

lemma isg_songs (gs : List String) (st : DBState) (sid : Nat) :
    (insertSongGenres st sid gs).songs = st.songs := by
  induction gs generalizing st with
  | nil => rfl
  | cons g rest ih =>
      rw [isg_cons, ih, isgStep_songs]

lemma isg_artists (gs : List String) (st : DBState) (sid : Nat) :
    (insertSongGenres st sid gs).artists = st.artists := by
  induction gs generalizing st with
  | nil => rfl
  | cons g rest ih =>
      rw [isg_cons, ih, isgStep_artists]

lemma isg_genres_mono (gs : List String) (st : DBState) (sid : Nat) :
    ∀ e ∈ st.genres, e ∈ (insertSongGenres st sid gs).genres := by
  induction gs generalizing st with
  | nil => exact fun e he => he
  | cons g rest ih =>
      intro e he
      rw [isg_cons]
      apply ih
      rw [isgStep_genres]
      exact goc_table_mono st .genre g e he

lemma isg_songGenres_len (gs : List String) (st : DBState) (sid : Nat) :
    (insertSongGenres st sid gs).songGenres.length
      = st.songGenres.length + gs.length := by
  induction gs generalizing st with
  | nil => rfl
  | cons g rest ih =>
      rw [isg_cons, ih, isgStep_songGenres]
      simp
      omega

lemma isg_songGenres_mem (gs : List String) (st : DBState) (sid : Nat) :
    ∀ p ∈ (insertSongGenres st sid gs).songGenres,
      p ∈ st.songGenres ∨
        (p.1 = sid ∧ ∃ e ∈ (insertSongGenres st sid gs).genres,
          e.id = p.2 ∧ e.name ∈ gs) := by
  induction gs generalizing st with
  | nil => exact fun p hp => Or.inl hp
  | cons g rest ih =>
      intro p hp
      rw [isg_cons] at hp
      rcases ih _ p hp with hin | ⟨hfst, e, he, heid, hename⟩
      · rw [isgStep_songGenres] at hin
        rcases List.mem_append.mp hin with hin | hin
        · exact Or.inl hin
        · have hpe : p = (sid, (get_or_create_id st .genre g).1) :=
            List.mem_singleton.mp hin
          right
          refine ⟨by rw [hpe], ?_⟩
          rcases goc_resolved st .genre g with ⟨e, he, heid, hename⟩
          refine ⟨e, ?_, by rw [hpe, heid], by rw [hename]; exact List.mem_cons_self _ _⟩
          rw [isg_cons]
          apply isg_genres_mono
          rw [isgStep_genres]
          exact he
      · right
        refine ⟨hfst, e, ?_, heid, List.mem_cons_of_mem _ hename⟩
        rw [isg_cons]
        exact he

lemma isg_inv (gs : List String) (st : DBState) (sid : Nat)
    (h : SchemaInv st) (hs : ∃ s ∈ st.songs, s.id = sid) :
    SchemaInv (insertSongGenres st sid gs) := by
  induction gs generalizing st with
  | nil => exact h
  | cons g rest ih =>
      rw [isg_cons]
      apply ih
      · have hinv1 := goc_inv st .genre g h
        obtain ⟨h1, h2, h3, h4, h5, h6, h7⟩ := hinv1
        have hsg := isgStep_songGenres sid st g
        refine ⟨?_, ?_, ?_, ?_, ?_, ?_, ?_⟩
        · exact h1
        · rw [isgStep_genres]; exact h2
        · exact h3
        · rw [isgStep_genres]; exact h4
        · rw [isgStep_songs]
          rw [goc_songs] at h5
          exact h5
        · intro s hsmem
          rw [isgStep_songs] at hsmem
          rw [goc_songs] at h6
          exact h6 s hsmem
        · intro p hp
          rw [isgStep_songGenres] at hp
          rcases List.mem_append.mp hp with hp | hp
          · have := h7 p (by rw [goc_songGenres]; exact hp)
            rcases this with ⟨⟨s, hsm, hsid⟩, ⟨gg, hgm, hgid⟩⟩
            refine ⟨⟨s, ?_, hsid⟩, ⟨gg, ?_, hgid⟩⟩
            · rw [isgStep_songs]
              rw [goc_songs] at hsm
              exact hsm
            · rw [isgStep_genres]
              exact hgm
          · have hpe : p = (sid, (get_or_create_id st .genre g).1) :=
              List.mem_singleton.mp hp
            subst hpe
            rcases goc_resolved st .genre g with ⟨e, he, heid, _⟩
            rcases hs with ⟨s, hsmem, hsid⟩
            refine ⟨⟨s, ?_, hsid⟩, ⟨e, ?_, heid⟩⟩
            · rw [isgStep_songs]
              exact hsmem
            · rw [isgStep_genres]
              exact he
      · rcases hs with ⟨s, hsmem, hsid⟩
        refine ⟨s, ?_, hsid⟩
        rw [isgStep_songs]
        exact hsmem

lemma isg_commits (gs : List String) (st : DBState) (sid : Nat) :
    (insertSongGenres st sid gs).commits + st.artists.length + st.genres.length
      = st.commits + (insertSongGenres st sid gs).artists.length
        + (insertSongGenres st sid gs).genres.length := by
  induction gs generalizing st with
  | nil => rfl
  | cons g rest ih =>
      rw [isg_cons]
      have h1 := ih (isgStep sid st g)
      have h2 := goc_commits st .genre g
      rw [isgStep_commits, isgStep_artists, isgStep_genres] at h1
      rw [goc_genre_artists] at h2
      omega

-- Structural lemmas about loadRow, one iteration of the row loop.

lemma loadRow_eq (st : DBState) (r : PRow) :
    loadRow st r = insertSongGenres (songInsertState st r)
      (nextSongId (get_or_create_id st .artist r.artist).2.songs)
      (pySplitCommaSpace r.genre) := rfl

lemma sis_artists (st : DBState) (r : PRow) :
    (songInsertState st r).artists
      = (get_or_create_id st .artist r.artist).2.artists := rfl

lemma sis_genres (st : DBState) (r : PRow) :
    (songInsertState st r).genres = st.genres := by
  show (get_or_create_id st .artist r.artist).2.genres = st.genres
  exact goc_artist_genres st r.artist

lemma sis_commits (st : DBState) (r : PRow) :
    (songInsertState st r).commits
      = (get_or_create_id st .artist r.artist).2.commits := rfl

lemma sis_songGenres (st : DBState) (r : PRow) :
    (songInsertState st r).songGenres = st.songGenres := by
  show (get_or_create_id st .artist r.artist).2.songGenres = st.songGenres
  exact goc_songGenres st .artist r.artist

lemma sis_songs (st : DBState) (r : PRow) :
    (songInsertState st r).songs = st.songs ++ [newSongRow st r] := by
  show (get_or_create_id st .artist r.artist).2.songs ++ [newSongRow st r]
    = st.songs ++ [newSongRow st r]
  rw [goc_songs]

lemma newSongRow_id (st : DBState) (r : PRow) :
    (newSongRow st r).id = nextSongId st.songs := by
  show nextSongId (get_or_create_id st .artist r.artist).2.songs
    = nextSongId st.songs
  rw [goc_songs]

lemma loadRow_songs (st : DBState) (r : PRow) :
    (loadRow st r).songs = st.songs ++ [newSongRow st r] := by
  rw [loadRow_eq, isg_songs, sis_songs]

lemma loadRow_artists (st : DBState) (r : PRow) :
    (loadRow st r).artists
      = (get_or_create_id st .artist r.artist).2.artists := by
  rw [loadRow_eq, isg_artists, sis_artists]

lemma loadRow_genres_mono (st : DBState) (r : PRow) :
    ∀ e ∈ st.genres, e ∈ (loadRow st r).genres := by
  intro e he
  rw [loadRow_eq]
  apply isg_genres_mono
  rw [sis_genres]
  exact he

lemma loadRow_songGenres_len (st : DBState) (r : PRow) :
    (loadRow st r).songGenres.length
      = st.songGenres.length + (pySplitCommaSpace r.genre).length := by
  rw [loadRow_eq, isg_songGenres_len, sis_songGenres]

lemma loadRow_songGenres_mem (st : DBState) (r : PRow) :
    ∀ p ∈ (loadRow st r).songGenres,
      p ∈ st.songGenres ∨
        (p.1 = nextSongId st.songs ∧ ∃ e ∈ (loadRow st r).genres,
          e.id = p.2 ∧ e.name ∈ pySplitCommaSpace r.genre) := by
  intro p hp
  rw [loadRow_eq] at hp
  have := isg_songGenres_mem (pySplitCommaSpace r.genre) _ _ p hp
  rcases this with hin | ⟨hfst, e, he, heid, hename⟩
  · left
    rw [sis_songGenres] at hin
    exact hin
  · right
    refine ⟨?_, e, ?_, heid, hename⟩
    · rw [hfst, goc_songs]
    · rw [loadRow_eq]
      exact he

lemma loadRow_commits (st : DBState) (r : PRow) :
    (loadRow st r).commits + st.artists.length + st.genres.length
      = st.commits + (loadRow st r).artists.length
        + (loadRow st r).genres.length := by
  rw [loadRow_eq]
  have h1 := isg_commits (pySplitCommaSpace r.genre) (songInsertState st r)
    (nextSongId (get_or_create_id st .artist r.artist).2.songs)
  have h2 := goc_commits st .artist r.artist
  rw [sis_commits, sis_artists, sis_genres] at h1
  rw [goc_artist_genres] at h2
  omega

lemma loadRow_inv (st : DBState) (r : PRow) (h : SchemaInv st) :
    SchemaInv (loadRow st r) := by
  rw [loadRow_eq]
  apply isg_inv
  · have hinv1 := goc_inv st .artist r.artist h
    obtain ⟨h1, h2, h3, h4, h5, h6, h7⟩ := hinv1
    rw [goc_songs] at h5 h6
    refine ⟨?_, ?_, ?_, ?_, ?_, ?_, ?_⟩
    · rw [sis_artists]; exact h1
    · rw [sis_genres]
      rw [goc_artist_genres] at h2
      exact h2
    · rw [sis_artists]; exact h3
    · rw [sis_genres]
      rw [goc_artist_genres] at h4
      exact h4
    · rw [sis_songs, List.map_append, List.nodup_append]
      refine ⟨h5, List.nodup_singleton _, ?_⟩
      intro a ha hb
      rcases List.mem_map.mp ha with ⟨x, hx, hxa⟩
      have hav : a = (newSongRow st r).id := by simpa using hb
      rw [newSongRow_id] at hav
      have := nextSongId_fresh st.songs x hx
      omega
    · intro s hs
      rw [sis_songs] at hs
      rw [sis_artists]
      rcases List.mem_append.mp hs with hs | hs
      · exact h6 s hs
      · have hse := List.mem_singleton.mp hs
        rcases goc_resolved st .artist r.artist with ⟨a, ha, haid, _⟩
        refine ⟨a, ha, ?_⟩
        rw [hse]
        show a.id = (newSongRow st r).artist_id
        exact haid
    · intro p hp
      rw [sis_songGenres] at hp
      rcases h7 p (by rw [goc_songGenres]; exact hp) with ⟨⟨s, hsm, hsid⟩, hg⟩
      rw [goc_songs] at hsm
      refine ⟨⟨s, ?_, hsid⟩, ?_⟩
      · rw [sis_songs]
        exact List.mem_append_left _ hsm
      · rcases hg with ⟨gg, hgm, hgid⟩
        refine ⟨gg, ?_, hgid⟩
        rw [sis_genres]
        rw [goc_artist_genres] at hgm
        exact hgm
  · refine ⟨newSongRow st r, ?_, rfl⟩
    rw [sis_songs]
    exact List.mem_append_right _ (List.mem_singleton.mpr rfl)

-- Direct computation rules for the two branches of get_or_create_id.

lemma goc_found (st : DBState) (t : TableKind) (v : String) (e : Entity)
    (hf : (tableOf st t).find? (fun x => x.name = v) = some e) :
    get_or_create_id st t v = (e.id, st) := by
  simp only [get_or_create_id, hf]

lemma goc_notfound (st : DBState) (t : TableKind) (v : String)
    (hf : (tableOf st t).find? (fun x => x.name = v) = none) :
    get_or_create_id st t v =
      (nextId (tableOf st t),
       dbCommit (setTable st t
         (tableOf st t ++ [Entity.mk (nextId (tableOf st t)) v]))) := by
  simp only [get_or_create_id, hf]

-- Lemmas about the whole row loop of populate_database.

lemma foldl_songs_len (data : List PRow) (st : DBState) :
    (data.foldl loadRow st).songs.length = st.songs.length + data.length := by
  induction data generalizing st with
  | nil => rfl
  | cons r rest ih =>
      rw [List.foldl_cons, ih, loadRow_songs]
      simp
      omega

lemma foldl_inv (data : List PRow) (st : DBState) (h : SchemaInv st) :
    SchemaInv (data.foldl loadRow st) := by
  induction data generalizing st with
  | nil => exact h
  | cons r rest ih =>
      rw [List.foldl_cons]
      exact ih _ (loadRow_inv st r h)

lemma foldl_commits (data : List PRow) (st : DBState) :
    (data.foldl loadRow st).commits + st.artists.length + st.genres.length
      = st.commits + (data.foldl loadRow st).artists.length
        + (data.foldl loadRow st).genres.length := by
  induction data generalizing st with
  | nil => rfl
  | cons r rest ih =>
      rw [List.foldl_cons]
      have h1 := ih (loadRow st r)
      have h2 := loadRow_commits st r
      omega

lemma foldl_songs_mem (data : List PRow) (st : DBState) :
    ∀ s ∈ (data.foldl loadRow st).songs,
      s ∈ st.songs ∨ ∃ p ∈ data, s.song_name = p.song
        ∧ s.duration = p.duration := by
  induction data generalizing st with
  | nil => exact fun s hs => Or.inl hs
  | cons r rest ih =>
      intro s hs
      rw [List.foldl_cons] at hs
      rcases ih (loadRow st r) s hs with hin | ⟨p, hp, hname, hdur⟩
      · rw [loadRow_songs] at hin
        rcases List.mem_append.mp hin with hin | hin
        · exact Or.inl hin
        · have hse := List.mem_singleton.mp hin
          right
          exact ⟨r, List.mem_cons_self _ _, by rw [hse]; rfl, by rw [hse]; rfl⟩
      · exact Or.inr ⟨p, List.mem_cons_of_mem _ hp, hname, hdur⟩

lemma foldl_artists_sub (data : List PRow) (st : DBState) :
    ∀ e ∈ (data.foldl loadRow st).artists,
      e ∈ st.artists ∨ ∃ p ∈ data, e.name = p.artist := by
  induction data generalizing st with
  | nil => exact fun e he => Or.inl he
  | cons r rest ih =>
      intro e he
      rw [List.foldl_cons] at he
      rcases ih (loadRow st r) e he with hin | ⟨p, hp, hname⟩
      · rw [loadRow_artists] at hin
        rcases goc_table_sub st .artist r.artist e hin with hin | hin
        · exact Or.inl hin
        · exact Or.inr ⟨r, List.mem_cons_self _ _, hin⟩
      · exact Or.inr ⟨p, List.mem_cons_of_mem _ hp, hname⟩

-- Lemmas about load_and_preprocess_data.

lemma preprocess_mem (rows : List Row) (p : PRow)
    (h : p ∈ load_and_preprocess_data rows) :
    ∃ r ∈ rows, p = canonArtist (convertDuration r) := by
  unfold load_and_preprocess_data at h
  rcases List.mem_map.mp h with ⟨q, hq, hqp⟩
  rcases List.mem_filter.mp hq with ⟨hq1, _⟩
  rcases List.mem_map.mp hq1 with ⟨r, hr, hrq⟩
  exact ⟨r, hr, by rw [← hqp, ← hrq]⟩

lemma preprocess_len (rows : List Row) :
    (load_and_preprocess_data rows).length
      = rows.countP (fun r => accept (convertDuration r)) := by
  unfold load_and_preprocess_data
  rw [List.length_map, ← List.countP_eq_length_filter, List.countP_map]
  rfl

-- Canonicalization: characterization and idempotence.

lemma toNat_ofNat_valid (n : Nat) (h : n < 55296) : (Char.ofNat n).toNat = n := by
  have hv : n.isValidChar := Or.inl h
  simp only [Char.ofNat, dif_pos hv]
  rfl

lemma toLower_toNat_upper (c : Char) (h65 : 65 ≤ c.toNat) (h90 : c.toNat ≤ 90) :
    (Char.toLower c).toNat = c.toNat + 32 := by
  simp only [Char.toLower]
  rw [if_pos ⟨h65, h90⟩]
  exact toNat_ofNat_valid _ (by omega)

lemma toLower_eq_self (c : Char) (h : ¬ (65 ≤ c.toNat ∧ c.toNat ≤ 90)) :
    Char.toLower c = c := by
  simp only [Char.toLower]
  rw [if_neg h]

lemma char_eq_of_toNat_eq {c d : Char} (h : c.toNat = d.toNat) : c = d := by
  have := congrArg Char.ofNat h
  rwa [Char.ofNat_toNat, Char.ofNat_toNat] at this

lemma char_space_iff (c : Char) : c = ' ' ↔ c.toNat = 32 :=
  ⟨fun h => h ▸ rfl, fun h => char_eq_of_toNat_eq (h.trans rfl)⟩

lemma stepChar_idem (c : Char) :
    replSpace (Char.toLower (replSpace (Char.toLower c)))
      = replSpace (Char.toLower c) := by
  by_cases hu : 65 ≤ c.toNat ∧ c.toNat ≤ 90
  · have h1 : (Char.toLower c).toNat = c.toNat + 32 :=
      toLower_toNat_upper c hu.1 hu.2
    have hns : ¬ Char.toLower c = ' ' := by
      rw [char_space_iff, h1]; omega
    have hd : replSpace (Char.toLower c) = Char.toLower c := by
      simp [replSpace, hns]
    rw [hd]
    have h2 : Char.toLower (Char.toLower c) = Char.toLower c :=
      toLower_eq_self _ (by rw [h1]; omega)
    rw [h2, hd]
  · have h1 : Char.toLower c = c := toLower_eq_self c hu
    by_cases hs : c = ' '
    · have hr : replSpace (Char.toLower c) = '_' := by
        simp [replSpace, h1, hs]
      rw [hr]
      have hl : Char.toLower '_' = '_' := toLower_eq_self _ (by decide)
      simp [replSpace, hl]
    · have hr : replSpace (Char.toLower c) = c := by
        simp [replSpace, h1, hs]
      rw [hr, hr]

lemma canonicalize_idem (s : String) :
    canonicalize (canonicalize s) = canonicalize s := by
  show String.mk ((((s.data.map Char.toLower).map replSpace).map
        Char.toLower).map replSpace)
    = String.mk ((s.data.map Char.toLower).map replSpace)
  congr 1
  simp only [List.map_map]
  apply List.map_congr_left
  intro c _
  exact stepChar_idem c

lemma get_artist_id_canon (st : DBState) (s : String) :
    get_artist_id st s = get_artist_id st (canonicalize s) := by
  unfold get_artist_id
  rw [canonicalize_idem]

-- Claim theorems.

/-- C1: for every table kind (Artist or Genre) and every key, calling
get_or_create_id twice with the same kind and key within one load run (that
is, on a store holding at most one entity with that key) returns the same
identifier both times, leaves the store unchanged by the second call, and
leaves exactly one stored entity with that key. -/
theorem claim_C1 (st : DBState) (t : TableKind) (k : String)
    (h : (tableOf st t).countP (fun e => e.name = k) ≤ 1) :
    (get_or_create_id (get_or_create_id st t k).2 t k).1
        = (get_or_create_id st t k).1
    ∧ (get_or_create_id (get_or_create_id st t k).2 t k).2
        = (get_or_create_id st t k).2
    ∧ (tableOf (get_or_create_id st t k).2 t).countP
        (fun e => e.name = k) = 1 := by
  cases hf : (tableOf st t).find? (fun e => e.name = k) with
  | some e =>
      have hg := goc_found st t k e hf
      have h1 : (get_or_create_id st t k).1 = e.id := by rw [hg]
      have h2 : (get_or_create_id st t k).2 = st := by rw [hg]
      rw [h2, h1, hg]
      refine ⟨rfl, rfl, ?_⟩
      have hmem := List.mem_of_find?_eq_some hf
      have hpe := List.find?_some hf
      have hpos : 0 < (tableOf st t).countP (fun e => e.name = k) :=
        List.countP_pos_iff.mpr ⟨e, hmem, hpe⟩
      omega
  | none =>
      have hg := goc_notfound st t k hf
      have h2 : (get_or_create_id st t k).2
          = dbCommit (setTable st t
              (tableOf st t ++ [Entity.mk (nextId (tableOf st t)) k])) := by
        rw [hg]
      have htab : tableOf (get_or_create_id st t k).2 t
          = tableOf st t ++ [Entity.mk (nextId (tableOf st t)) k] := by
        rw [h2, tableOf_dbCommit, tableOf_setTable]
      have hfind2 : (tableOf (get_or_create_id st t k).2 t).find?
          (fun e => e.name = k)
          = some (Entity.mk (nextId (tableOf st t)) k) := by
        rw [htab, find?_append_none _ _ hf]
        simp
      have hg2 := goc_found _ t k _ hfind2
      rw [hg2]
      refine ⟨?_, rfl, ?_⟩
      · rw [hg]
      · rw [htab, List.countP_append]
        have hz : (tableOf st t).countP (fun e => e.name = k) = 0 := by
          apply List.countP_eq_zero.mpr
          exact List.find?_eq_none.mp hf
        rw [hz]
        simp

/-- C1 witness: the theorem applied to the empty store, the Artist kind and a
concrete key. -/
theorem claim_C1_witness :
    ((tableOf initState .artist).countP (fun e => e.name = "x") ≤ 1)
    ∧ ((get_or_create_id (get_or_create_id initState .artist "x").2
          .artist "x").1 = (get_or_create_id initState .artist "x").1
      ∧ (get_or_create_id (get_or_create_id initState .artist "x").2
          .artist "x").2 = (get_or_create_id initState .artist "x").2
      ∧ (tableOf (get_or_create_id initState .artist "x").2 .artist).countP
          (fun e => e.name = "x") = 1) :=
  ⟨by decide, claim_C1 initState .artist "x" (by decide)⟩

/-- C2 counterexample: the claim that no commit occurs mid-run and that all
insertions become durable only through a single final commit is false.
Loading the two concrete rows rowA and rowB performs four commits, and the
intermediate state reached after the first row (through which the fold of
populate_database passes) already counts two commits and holds a durable
Song row before the end of the run. -/
theorem claim_C2_counterexample :
    (populate_database initState [rowA, rowB]).commits = 4
    ∧ (populate_database initState [rowA, rowB]).commits ≠ 1
    ∧ (loadRow initState rowA).commits = 2
    ∧ (loadRow initState rowA).durableSongs.length = 1
    ∧ List.foldl loadRow initState [rowA, rowB]
        = loadRow (loadRow initState rowA) rowB :=
  ⟨by decide, by decide, by decide, by decide, rfl⟩

/-- C2 (amended): populate_database ends every run with a commit that makes
all insertions of the run durable, but get_or_create_id also commits once per
newly inserted Artist or Genre entity, so a run performs exactly one plus the
number of newly created entities commits rather than a single one. -/
theorem claim_C2_amended (st : DBState) (data : List PRow) :
    ((populate_database st data).commits + st.artists.length
        + st.genres.length
      = st.commits + 1 + (populate_database st data).artists.length
        + (populate_database st data).genres.length)
    ∧ (populate_database st data).durableArtists
        = (populate_database st data).artists
    ∧ (populate_database st data).durableGenres
        = (populate_database st data).genres
    ∧ (populate_database st data).durableSongs
        = (populate_database st data).songs
    ∧ (populate_database st data).durableSongGenres
        = (populate_database st data).songGenres := by
  refine ⟨?_, rfl, rfl, rfl, rfl⟩
  have h1 := foldl_commits data st
  unfold populate_database
  simp only [dbCommit]
  omega

/-- C3: the freshly created schema satisfies the invariants; populate_database
preserves them on any store satisfying them (unique artist names, unique genre
names, unique surrogate ids, every Song row referencing an existing Artist
row, every SongGenre pair referencing an existing Song row and Genre row);
and loading two rows sharing one artist name from the fresh store yields
exactly one Artist row and two Song rows. -/
theorem claim_C3 :
    SchemaInv (create_tables initState)
    ∧ (∀ (st : DBState) (data : List PRow),
        SchemaInv st → SchemaInv (populate_database st data))
    ∧ (∀ r1 r2 : PRow, r1.artist = r2.artist →
        (populate_database initState [r1, r2]).artists.length = 1
        ∧ (populate_database initState [r1, r2]).songs.length = 2) := by
  refine ⟨by decide, ?_, ?_⟩
  · intro st data h
    show SchemaInv (dbCommit (data.foldl loadRow st))
    have : SchemaInv (data.foldl loadRow st) := foldl_inv data st h
    exact this
  · intro r1 r2 h
    have h1 : (loadRow initState r1).artists
        = [Entity.mk 1 r1.artist] := by
      rw [loadRow_artists, goc_notfound initState .artist r1.artist rfl]
      rfl
    have hf2 : ((loadRow initState r1).artists).find?
        (fun e => e.name = r2.artist) = some (Entity.mk 1 r1.artist) := by
      rw [h1]
      apply List.find?_cons_of_pos
      simp [h]
    have h2 : (loadRow (loadRow initState r1) r2).artists
        = (loadRow initState r1).artists := by
      rw [loadRow_artists, goc_found _ .artist r2.artist _ hf2]
    constructor
    · show (loadRow (loadRow initState r1) r2).artists.length = 1
      rw [h2, h1]
      rfl
    · show (loadRow (loadRow initState r1) r2).songs.length = 2
      rw [loadRow_songs, loadRow_songs]
      simp [initState]

/-- C3 witness: the invariants hold of the store obtained by loading the two
concrete rows rowA and rowB (which share artist name), and that load produces
one Artist row and two Song rows. -/
theorem claim_C3_witness :
    SchemaInv (populate_database initState [rowA, rowB])
    ∧ (populate_database initState [rowA, rowB]).artists.length = 1
    ∧ (populate_database initState [rowA, rowB]).songs.length = 2 :=
  ⟨claim_C3.2.1 initState [rowA, rowB] (by decide),
   (claim_C3.2.2 rowA rowB (by decide)).1,
   (claim_C3.2.2 rowA rowB (by decide)).2⟩

/-- C4: a raw input row survives preprocessing, and hence produces exactly one
Song row, if and only if popularity is strictly greater than 50, speechiness
lies in the inclusive interval from 0.33 to 0.66, and danceability is strictly
greater than 0.20; the Song count of a load of the preprocessed data equals
the number of input rows satisfying this predicate. -/
theorem claim_C4 (rows : List Row) (st : DBState) :
    ((populate_database st (load_and_preprocess_data rows)).songs.length
      = st.songs.length + rows.countP (fun r =>
          50 < r.popularity ∧ (0.33 : Rat) ≤ r.speechiness
            ∧ r.speechiness ≤ (0.66 : Rat) ∧ (0.20 : Rat) < r.danceability))
    ∧ (∀ r : Row, (load_and_preprocess_data [r]).length = 1 ↔
        (50 < r.popularity ∧ (0.33 : Rat) ≤ r.speechiness
          ∧ r.speechiness ≤ (0.66 : Rat) ∧ (0.20 : Rat) < r.danceability)) := by
  have hpt : ∀ r : Row, accept (convertDuration r)
      = decide (50 < r.popularity ∧ (0.33 : Rat) ≤ r.speechiness
          ∧ r.speechiness ≤ (0.66 : Rat) ∧ (0.20 : Rat) < r.danceability) := by
    intro r
    by_cases h1 : (50 : Int) < r.popularity <;>
      by_cases h2 : (0.33 : Rat) ≤ r.speechiness <;>
      by_cases h3 : r.speechiness ≤ (0.66 : Rat) <;>
      by_cases h4 : (0.20 : Rat) < r.danceability <;>
      simp [accept, convertDuration, h1, h2, h3, h4]
  constructor
  · have hlen : (populate_database st (load_and_preprocess_data rows)).songs.length
        = st.songs.length + (load_and_preprocess_data rows).length := by
      show (List.foldl loadRow st (load_and_preprocess_data rows)).songs.length = _
      exact foldl_songs_len _ st
    rw [hlen, preprocess_len]
    congr 1
    apply List.countP_congr
    intro r _
    rw [hpt r]
  · intro r
    have hsingle : (load_and_preprocess_data [r]).length
        = if accept (convertDuration r) then 1 else 0 := by
      unfold load_and_preprocess_data
      simp only [List.map_cons, List.map_nil, List.filter_cons, List.filter_nil]
      cases haccept : accept (convertDuration r) <;> simp [haccept]
    rw [hsingle, hpt r]
    by_cases hp : (50 < r.popularity ∧ (0.33 : Rat) ≤ r.speechiness
        ∧ r.speechiness ≤ (0.66 : Rat) ∧ (0.20 : Rat) < r.danceability)
    · simp [hp]
    · simp [hp]

/-- C5: the duration stored for a row is its duration_ms divided by 1000 and
rounded to a nearest integer (the rounded value times 1000 differs from the
input by at most 500), half-way values are resolved determinately to the even
neighbour, 200000 milliseconds round to 200 seconds, and every Song row the
pipeline stores carries the rounded duration of the raw row it came from. -/
theorem claim_C5 (ms : Nat) :
    ((roundDiv1000 ms : Int) * 1000 - (ms : Int) ≤ 500
      ∧ (ms : Int) - (roundDiv1000 ms : Int) * 1000 ≤ 500)
    ∧ (ms % 1000 = 500 → roundDiv1000 ms % 2 = 0)
    ∧ (ms = 200000 → roundDiv1000 ms = 200)
    ∧ (∀ (st : DBState) (rows : List Row) (s : SongRow),
        s ∈ (populate_database st (load_and_preprocess_data rows)).songs →
        s ∈ st.songs ∨ ∃ r ∈ rows, s.duration = roundDiv1000 r.duration_ms) := by
  have hmod : ms % 1000 < 1000 := Nat.mod_lt _ (by norm_num)
  have hdm : 1000 * (ms / 1000) + ms % 1000 = ms := Nat.div_add_mod ms 1000
  refine ⟨?_, ?_, ?_, ?_⟩
  · unfold roundDiv1000
    split_ifs <;> constructor <;> push_cast <;> omega
  · intro h500
    unfold roundDiv1000
    rw [if_neg (by omega), if_neg (by omega)]
    split_ifs with he
    · exact he
    · omega
  · intro h
    subst h
    decide
  · intro st rows s hs
    have hs2 : s ∈ (List.foldl loadRow st (load_and_preprocess_data rows)).songs :=
      hs
    rcases foldl_songs_mem _ st s hs2 with hin | ⟨p, hp, _, hdur⟩
    · exact Or.inl hin
    · rcases preprocess_mem rows p hp with ⟨r, hr, hpe⟩
      right
      refine ⟨r, hr, ?_⟩
      rw [hdur, hpe]
      rfl

/-- C5 witness: the theorem applied at the half-way input 1500, whose rounded
value is the even neighbour 2. -/
theorem claim_C5_witness :
    1500 % 1000 = 500 ∧ roundDiv1000 1500 % 2 = 0 :=
  ⟨by decide, (claim_C5 1500).2.1 (by decide)⟩

/-- C6: one iteration of the loader splits the genre field on the exact
comma-space delimiter and inserts exactly one SongGenre pair per resulting
token, each pair linking the newly inserted Song (whose id is the fresh song
id) to a Genre entity whose name is one of the tokens; the genre field
"pop, rock" yields concretely two SongGenre rows linking the Song to the
Genre rows named "pop" and "rock". -/
theorem claim_C6 (st : DBState) (r : PRow) :
    ((loadRow st r).songGenres.length
      = st.songGenres.length + (pySplitCommaSpace r.genre).length)
    ∧ (∀ p ∈ (loadRow st r).songGenres,
        p ∈ st.songGenres ∨
          (p.1 = nextSongId st.songs ∧ ∃ e ∈ (loadRow st r).genres,
            e.id = p.2 ∧ e.name ∈ pySplitCommaSpace r.genre))
    ∧ pySplitCommaSpace "pop, rock" = ["pop", "rock"]
    ∧ (populate_database initState [rowPR]).songGenres = [(1, 1), (1, 2)]
    ∧ (populate_database initState [rowPR]).genres
        = [Entity.mk 1 "pop", Entity.mk 2 "rock"] :=
  ⟨loadRow_songGenres_len st r, loadRow_songGenres_mem st r,
   by decide, by decide, by decide⟩

/-- C6 witness: the theorem applied to the empty store and the concrete row
with genre field "pop, rock", at its first inserted SongGenre pair. -/
theorem claim_C6_witness :
    ((1, 1) ∈ (loadRow initState rowPR).songGenres)
    ∧ ((1, 1) ∈ initState.songGenres ∨
        ((1, 1).1 = nextSongId initState.songs
          ∧ ∃ e ∈ (loadRow initState rowPR).genres,
            e.id = (1, 1).2 ∧ e.name ∈ pySplitCommaSpace rowPR.genre)) :=
  ⟨by decide, (claim_C6 initState rowPR).2.1 (1, 1) (by decide)⟩

lemma goc_fst_congr (st1 st2 : DBState) (t : TableKind) (v : String)
    (h : tableOf st1 t = tableOf st2 t) :
    (get_or_create_id st1 t v).1 = (get_or_create_id st2 t v).1 := by
  rcases goc_spec st1 t v with ⟨e, hf, hg⟩ | ⟨hf, hg⟩
  · rw [hg]
    rw [h] at hf
    rw [goc_found st2 t v e hf]
  · rw [hg]
    rw [h] at hf
    rw [goc_notfound st2 t v hf, h]

/-- C7 counterexample: the claim that a row whose genre field is the empty
string yields a Song with zero SongGenre rows is false: Python splits the
empty string on comma-space into one empty token, so loading the concrete
row rowEG (genre field empty) stores one Song together with one SongGenre
row, referencing a Genre entity whose name is the empty string. -/
theorem claim_C7_counterexample :
    (populate_database initState [rowEG]).songs.length = 1
    ∧ (populate_database initState [rowEG]).songGenres.length ≠ 0
    ∧ (populate_database initState [rowEG]).songGenres = [(1, 1)]
    ∧ (populate_database initState [rowEG]).genres = [Entity.mk 1 ""] := by
  decide

/-- C7 (amended): for a row whose genre field is the empty string the loader
completes without error, and the resulting Song receives exactly one SongGenre
row, linking it to the Genre resolved for the empty-string token (an entity
whose name is the empty string), because the split of the empty string on the
comma-space delimiter yields one empty token rather than no token. -/
theorem claim_C7_amended (st : DBState) (r : PRow) (h : r.genre = "") :
    (loadRow st r).songGenres = st.songGenres
        ++ [(nextSongId st.songs, (get_or_create_id st .genre "").1)]
    ∧ ∃ e ∈ (loadRow st r).genres,
        e.id = (get_or_create_id st .genre "").1 ∧ e.name = "" := by
  have hsplit : pySplitCommaSpace r.genre = [""] := by rw [h]; rfl
  have h1 : loadRow st r = isgStep
      (nextSongId (get_or_create_id st .artist r.artist).2.songs)
      (songInsertState st r) "" := by
    rw [loadRow_eq, hsplit]
    rfl
  have htab : tableOf (songInsertState st r) .genre = tableOf st .genre := by
    show (songInsertState st r).genres = st.genres
    exact sis_genres st r
  constructor
  · rw [h1, isgStep_songGenres, sis_songGenres, goc_songs,
        goc_fst_congr (songInsertState st r) st .genre "" htab]
  · rcases goc_resolved (songInsertState st r) .genre "" with ⟨e, he, heid, hename⟩
    refine ⟨e, ?_, ?_, hename⟩
    · rw [h1]
      show e ∈ (isgStep _ (songInsertState st r) "").genres
      rw [isgStep_genres]
      exact he
    · rw [heid]
      exact goc_fst_congr _ st .genre "" htab

/-- C7 witness: the amended theorem applied to the empty store and the
concrete empty-genre row rowEG. -/
theorem claim_C7_witness :
    rowEG.genre = ""
    ∧ ((loadRow initState rowEG).songGenres = initState.songGenres
        ++ [(nextSongId initState.songs,
             (get_or_create_id initState .genre "").1)]
      ∧ ∃ e ∈ (loadRow initState rowEG).genres,
          e.id = (get_or_create_id initState .genre "").1 ∧ e.name = "") :=
  ⟨rfl, claim_C7_amended initState rowEG rfl⟩

/-- C8: get_or_create_id stores the key it is given verbatim (every entity of
the affected table after a call was already present or carries exactly the
given key), preprocessing sets the artist field of every surviving row to the
canonicalized (lower-cased, underscore-for-space) form of the raw artist
string, the raw artist "Foo Bar" canonicalizes to "foo_bar", and running the
pipeline on the specification example row stores exactly one Artist row named
"foo_bar". -/
theorem claim_C8 :
    (∀ (st : DBState) (t : TableKind) (v : String) (e : Entity),
        e ∈ tableOf (get_or_create_id st t v).2 t →
          e ∈ tableOf st t ∨ e.name = v)
    ∧ (∀ (rows : List Row) (p : PRow), p ∈ load_and_preprocess_data rows →
        ∃ r ∈ rows, p.artist = canonicalize r.artist)
    ∧ canonicalize "Foo Bar" = "foo_bar"
    ∧ (populate_database initState
        (load_and_preprocess_data [rawFooBar])).artists
          = [Entity.mk 1 "foo_bar"] := by
  refine ⟨goc_table_sub, ?_, by decide, ?_⟩
  · intro rows p hp
    rcases preprocess_mem rows p hp with ⟨r, hr, hpe⟩
    refine ⟨r, hr, ?_⟩
    rw [hpe]
    rfl
  · have hacc : accept (convertDuration rawFooBar) = true := by
      norm_num [accept, convertDuration, rawFooBar]
    have hpre : load_and_preprocess_data [rawFooBar]
        = [canonArtist (convertDuration rawFooBar)] := by
      unfold load_and_preprocess_data
      simp only [List.map_cons, List.map_nil, List.filter_cons, List.filter_nil,
        hacc]
      rfl
    rw [hpre]
    decide

/-- C8 witness: the key-preservation conjunct applied to the empty store, the
Artist kind and a concrete key. -/
theorem claim_C8_witness :
    (Entity.mk 1 "x" ∈ tableOf (get_or_create_id initState .artist "x").2
        .artist)
    ∧ (Entity.mk 1 "x" ∈ tableOf initState .artist
        ∨ (Entity.mk 1 "x").name = "x") :=
  ⟨by decide, claim_C8.1 initState .artist "x" (Entity.mk 1 "x") (by decide)⟩

/-- C9: when no Artist row matches the canonicalized form of the requested
name, get_artist_id reports the miss by returning None and
display_artist_vs_genre_popularity aborts that request, producing no
comparison; both functions only read the store, and the process continues (in
the model, both are total functions returning none). -/
theorem claim_C9 (st : DBState) (artist_name : String)
    (h : st.artists.find? (fun e => e.name = canonicalize artist_name)
      = none) :
    get_artist_id st artist_name = none
    ∧ display_artist_vs_genre_popularity st artist_name = none := by
  have h1 : get_artist_id st artist_name = none := by
    unfold get_artist_id
    rw [h]
  refine ⟨h1, ?_⟩
  unfold display_artist_vs_genre_popularity
  rw [h1]

/-- C9 witness: the theorem applied to the empty store and a concrete unknown
artist name. -/
theorem claim_C9_witness :
    (initState.artists.find? (fun e => e.name = canonicalize "ghost") = none)
    ∧ get_artist_id initState "ghost" = none
    ∧ display_artist_vs_genre_popularity initState "ghost" = none :=
  ⟨rfl, (claim_C9 initState "ghost" rfl).1, (claim_C9 initState "ghost" rfl).2⟩

/-- C10: get_artist_id applies the loader canonicalization to its argument
before searching, so querying any string and querying its canonicalized form
give the same result, two strings with the same canonical form resolve
identically, and a case variant of the loaded raw artist name "Foo Bar"
resolves to that artist's id in the store produced by the pipeline. -/
theorem claim_C10 (st : DBState) (s u : String)
    (h : canonicalize s = canonicalize u) :
    (get_artist_id st s = get_artist_id st (canonicalize s))
    ∧ get_artist_id st s = get_artist_id st u
    ∧ get_artist_id (populate_database initState
        [canonArtist (convertDuration rawFooBar)]) "FOO bar" = some 1 := by
  refine ⟨get_artist_id_canon st s, ?_, by decide⟩
  unfold get_artist_id
  rw [h]

/-- C10 witness: the theorem applied to the empty store and the two case and
spacing variants "FOO bar" and "Foo Bar" of one artist name. -/
theorem claim_C10_witness :
    canonicalize "FOO bar" = canonicalize "Foo Bar"
    ∧ ((get_artist_id initState "FOO bar"
          = get_artist_id initState (canonicalize "FOO bar"))
      ∧ get_artist_id initState "FOO bar" = get_artist_id initState "Foo Bar"
      ∧ get_artist_id (populate_database initState
          [canonArtist (convertDuration rawFooBar)]) "FOO bar" = some 1) :=
  ⟨by decide, claim_C10 initState "FOO bar" "Foo Bar" (by decide)⟩

/-- C2 witness: the amended theorem instantiated at the empty store and the
one-row input rowA, whose run creates two new entities and hence commits
three times. -/
theorem claim_C2_witness :
    (populate_database initState [rowA]).commits + initState.artists.length
        + initState.genres.length
      = initState.commits + 1
        + (populate_database initState [rowA]).artists.length
        + (populate_database initState [rowA]).genres.length :=
  (claim_C2_amended initState [rowA]).1

/-- C4 witness: the boundary characterization instantiated at the concrete
example row, which satisfies the filter predicate. -/
theorem claim_C4_witness :
    (load_and_preprocess_data [rawFooBar]).length = 1 ↔
      (50 < rawFooBar.popularity ∧ (0.33 : Rat) ≤ rawFooBar.speechiness
        ∧ rawFooBar.speechiness ≤ (0.66 : Rat)
        ∧ (0.20 : Rat) < rawFooBar.danceability) :=
  (claim_C4 [rawFooBar] initState).2 rawFooBar
